import Mathlib

/-!
Verification development for the steam-achievement-tracker repository.

The Go source is shallowly embedded: pure functions become Lean
functions, the sqlite repository becomes explicit state passing over a
record of tables, and the concurrent refresh orchestrator is embedded as
the sequential schedule of its worker pool (the queue phase runs before
any worker starts in the source, and workers drain a shared queue; the
embedding processes the queue in order with explicit state).  Machine
integers are modelled by Int (the counters and identifiers involved are
small), timestamps by Int, and the float64 percentages by rationals.
External standard-library collaborators are modelled faithfully where
they matter (SHA-256 is implemented bit for bit over Nat) and abstractly
where only their shape matters (RFC3339 time rendering).
-/

namespace Tracker

/-! ## SHA-256, modelling the crypto sha256 package used by hashutil.go -/

def w32 (n : Nat) : Nat := n % 4294967296

def rotr32 (n x : Nat) : Nat := w32 ((x >>> n) ||| (x <<< (32 - n)))

def not32 (x : Nat) : Nat := 4294967295 ^^^ x

def shaCh (e f g : Nat) : Nat := (e &&& f) ^^^ (not32 e &&& g)

def shaMaj (a b c : Nat) : Nat := (a &&& b) ^^^ (a &&& c) ^^^ (b &&& c)

def smallSigma0 (x : Nat) : Nat := rotr32 7 x ^^^ rotr32 18 x ^^^ (x >>> 3)

def smallSigma1 (x : Nat) : Nat := rotr32 17 x ^^^ rotr32 19 x ^^^ (x >>> 10)

def bigSigma0 (x : Nat) : Nat := rotr32 2 x ^^^ rotr32 13 x ^^^ rotr32 22 x

def bigSigma1 (x : Nat) : Nat := rotr32 6 x ^^^ rotr32 11 x ^^^ rotr32 25 x

def sha256K : Array Nat := #[
  1116352408, 1899447441, 3049323471, 3921009573, 961987163, 1508970993,
  2453635748, 2870763221, 3624381080, 310598401, 607225278, 1426881987,
  1925078388, 2162078206, 2614888103, 3248222580, 3835390401, 4022224774,
  264347078, 604807628, 770255983, 1249150122, 1555081692, 1996064986,
  2554220882, 2821834349, 2952996808, 3210313671, 3336571891, 3584528711,
  113926993, 338241895, 666307205, 773529912, 1294757372, 1396182291,
  1695183700, 1986661051, 2177026350, 2456956037, 2730485921, 2820302411,
  3259730800, 3345764771, 3516065817, 3600352804, 4094571909, 275423344,
  430227734, 506948616, 659060556, 883997877, 958139571, 1322822218,
  1537002063, 1747873779, 1955562222, 2024104815, 2227730452, 2361852424,
  2428436474, 2756734187, 3204031479, 3329325298]

def sha256Init : Array Nat := #[
  1779033703, 3144134277, 1013904242, 2773480762, 1359893119, 2600822924,
  528734635, 1541459225]

def sha256Compress (h : Array Nat) (block : Array Nat) : Array Nat := Id.run do
  let mut w := block
  for i in [16:64] do
    w := w.push (w32 (smallSigma1 (w.getD (i-2) 0) + w.getD (i-7) 0 +
      smallSigma0 (w.getD (i-15) 0) + w.getD (i-16) 0))
  let mut a := h.getD 0 0
  let mut b := h.getD 1 0
  let mut c := h.getD 2 0
  let mut d := h.getD 3 0
  let mut e := h.getD 4 0
  let mut f := h.getD 5 0
  let mut g := h.getD 6 0
  let mut hh := h.getD 7 0
  for i in [0:64] do
    let t1 := w32 (hh + bigSigma1 e + shaCh e f g + sha256K.getD i 0 + w.getD i 0)
    let t2 := w32 (bigSigma0 a + shaMaj a b c)
    hh := g
    g := f
    f := e
    e := w32 (d + t1)
    d := c
    c := b
    b := a
    a := w32 (t1 + t2)
  return #[w32 (h.getD 0 0 + a), w32 (h.getD 1 0 + b), w32 (h.getD 2 0 + c), w32 (h.getD 3 0 + d),
    w32 (h.getD 4 0 + e), w32 (h.getD 5 0 + f), w32 (h.getD 6 0 + g), w32 (h.getD 7 0 + hh)]

def sha256Pad (msg : List Nat) : List Nat :=
  let len := msg.length
  let zeros := (119 - len % 64) % 64
  let bitLen := len * 8
  msg ++ [0x80] ++ List.replicate zeros 0 ++
    (List.range 8).map (fun i => bitLen >>> (8 * (7 - i)) % 256)

def bytesToWords : List Nat → List Nat
  | b0 :: b1 :: b2 :: b3 :: rest =>
      ((b0 <<< 24) ||| (b1 <<< 16) ||| (b2 <<< 8) ||| b3) :: bytesToWords rest
  | _ => []

def wordsToBlocks : List Nat → List (Array Nat)
  | w0 :: w1 :: w2 :: w3 :: w4 :: w5 :: w6 :: w7 :: w8 :: w9 :: w10 :: w11 :: w12 :: w13 :: w14 :: w15 :: rest =>
      #[w0, w1, w2, w3, w4, w5, w6, w7, w8, w9, w10, w11, w12, w13, w14, w15] :: wordsToBlocks rest
  | _ => []

def sha256Bytes (msg : List Nat) : List Nat :=
  let blocks := wordsToBlocks (bytesToWords (sha256Pad msg))
  let h := blocks.foldl sha256Compress sha256Init
  h.toList.foldr (fun w acc => (w >>> 24) % 256 :: (w >>> 16) % 256 :: (w >>> 8) % 256 :: w % 256 :: acc) []

def utf8EncodeCharNat (c : Char) : List Nat :=
  let n := c.toNat
  if n < 0x80 then [n]
  else if n < 0x800 then [0xC0 ||| (n >>> 6), 0x80 ||| (n &&& 0x3F)]
  else if n < 0x10000 then
    [0xE0 ||| (n >>> 12), 0x80 ||| ((n >>> 6) &&& 0x3F), 0x80 ||| (n &&& 0x3F)]
  else
    [0xF0 ||| (n >>> 18), 0x80 ||| ((n >>> 12) &&& 0x3F), 0x80 ||| ((n >>> 6) &&& 0x3F), 0x80 ||| (n &&& 0x3F)]

def utf8Bytes (s : String) : List Nat := s.data.flatMap utf8EncodeCharNat

def hexDigitChar (n : Nat) : Char := if n < 10 then Char.ofNat (48 + n) else Char.ofNat (87 + n)

def byteToHex (b : Nat) : String := String.mk [hexDigitChar (b / 16 % 16), hexDigitChar (b % 16)]

/-- Models the sha256Hex helper of hashutil.go: the hex encoding of the
SHA-256 digest of the UTF-8 bytes of the input string. -/
def sha256Hex (s : String) : String := String.join ((sha256Bytes (utf8Bytes s)).map byteToHex)

/-! ## Sorting helper modelling the Go sort package calls -/

/-- Models sort.Strings: sort a list of strings ascending. -/
def sortStrings (l : List String) : List String :=
  List.insertionSort (fun a b : String => a ≤ b) l

/-! ## hashutil.go -/

/-- CatalogHash computes a stable fingerprint of the catalog (set of apinames)
for a game: one line per apiname, prefixed with the appid, trimmed, sorted,
newline-joined and hashed. -/
def CatalogHash (appid : Int) (apinames : List String) : String :=
  if apinames.length = 0 then sha256Hex ""
  else
    sha256Hex (String.intercalate "\n"
      (sortStrings (apinames.map (fun n => toString appid ++ "|" ++ n.trim))))

/-- Per-achievement state entry, modelling the anonymous APIName/Achieved
struct used by StateHash and BuildSnapshotAchievements. -/
structure AchState where
  apiname : String
  achieved : Bool
deriving DecidableEq

/-- StateHash fingerprints the per-achievement state for a game; each line
is the appid, the trimmed apiname and a 0 or 1 achieved flag. -/
def StateHash (appid : Int) (items : List AchState) : String :=
  if items.length = 0 then sha256Hex ""
  else
    sha256Hex (String.intercalate "\n"
      (sortStrings (items.map (fun it =>
        toString appid ++ "|" ++ it.apiname.trim ++ "|" ++ (if it.achieved then "1" else "0")))))

/-- Sorting of AchState entries ascending by apiname, modelling the
sort.Slice call in BuildSnapshotAchievements. -/
def sortAchStates (l : List AchState) : List AchState :=
  List.insertionSort (fun a b : AchState => a.apiname ≤ b.apiname) l

/-- BuildSnapshotAchievements converts the achieved map (embedded as an
association list with distinct keys) into sorted rows for InsertSnapshot. -/
def BuildSnapshotAchievements (state : List (String × Bool)) : List AchState :=
  if state.length = 0 then []
  else sortAchStates (state.map (fun p => { apiname := p.1, achieved := p.2 }))

/-- Per-snapshot achievement row, as scanned by the sqlite repository. -/
structure SnapshotAchievement where
  snapshotId : Int
  appid : Int
  apiname : String
  achieved : Bool
deriving DecidableEq

/-- Result of DiffSnapshotAchievements. -/
structure AchievementDiff where
  added : List String
  removed : List String
  newlyEarned : List String
  lost : List String
deriving DecidableEq

/-- Last-write-wins lookup, modelling the Go map built by the toMap helper
inside DiffSnapshotAchievements (later entries overwrite earlier ones). -/
def lookupAch (l : List SnapshotAchievement) (k : String) : Option Bool :=
  (l.reverse.find? (fun x => x.apiname == k)).map (fun x => x.achieved)

/-- The key set of the Go map built from a row list. -/
def achKeys (l : List SnapshotAchievement) : List String :=
  (l.map (fun x => x.apiname)).dedup

/-- DiffSnapshotAchievements compares two per-snapshot achievement lists:
added and removed track catalog membership changes, newlyEarned and lost
track flipped achieved flags; all four outputs are sorted. -/
def DiffSnapshotAchievements (prev curr : List SnapshotAchievement) : AchievementDiff :=
  let added := (achKeys curr).filter (fun k => (lookupAch prev k).isNone)
  let removed := (achKeys prev).filter (fun k => (lookupAch curr k).isNone)
  let newly := (achKeys prev).filter
    (fun k => lookupAch prev k == some false && lookupAch curr k == some true)
  let lost := (achKeys prev).filter
    (fun k => lookupAch prev k == some true && lookupAch curr k == some false)
  { added := sortStrings added
    removed := sortStrings removed
    newlyEarned := sortStrings newly
    lost := sortStrings lost }

/-! ## Data model of the sqlite repository (sqlite_repo.go and the schema) -/

/-- Row of the games table: identifier, display name, and the two nullable
schema-cache columns achievements_count and schema_checked_at. -/
structure GameRow where
  appid : Int
  name : String
  achievementsCount : Option Int
  schemaCheckedAt : Option Int
deriving DecidableEq

/-- Row of the achievement_catalog table. -/
structure AchievementDef where
  appid : Int
  apiname : String
  name : String
  descr : String
deriving DecidableEq

/-- Row of the snapshots table, in the column order scanned by the repository. -/
structure Snapshot where
  id : Int
  steamid : String
  appid : Int
  totalDone : Int
  totalAvailable : Int
  catalogHash : String
  stateHash : String
  takenAt : Int
deriving DecidableEq

/-- Argument record of InsertSnapshot. -/
structure SnapshotInsert where
  steamid : String
  appid : Int
  totalDone : Int
  totalAvailable : Int
  catalogHash : String
  stateHash : String
  achievements : List AchState
deriving DecidableEq

/-- The database state: the tables touched by the claims, plus the next
autoincrement snapshot identifier. -/
structure DB where
  games : List GameRow
  catalog : List AchievementDef
  snapshots : List Snapshot
  snapshotAchievements : List SnapshotAchievement
  nextSnapshotId : Int
deriving DecidableEq

/-- GetGameSchemaCache: select the two cache columns of the games row for
an appid; none models the no-rows error of the single-row query. -/
def GetGameSchemaCache (db : DB) (appid : Int) : Option (Option Int × Option Int) :=
  (db.games.find? (fun g => g.appid == appid)).map (fun g => (g.achievementsCount, g.schemaCheckedAt))

/-- UpdateGameSchemaCache: upsert of the games row keyed by appid that sets
achievements_count and schema_checked_at, preserving the name when the row
exists and defaulting it to the empty string otherwise. -/
def UpdateGameSchemaCache (db : DB) (appid : Int) (achCount : Int) (checkedAt : Int) : DB :=
  if db.games.any (fun g => g.appid == appid) then
    { db with games := db.games.map (fun g =>
        if g.appid == appid then
          { g with achievementsCount := some achCount, schemaCheckedAt := some checkedAt }
        else g) }
  else
    { db with games := db.games ++
        [{ appid := appid, name := "", achievementsCount := some achCount, schemaCheckedAt := some checkedAt }] }

/-- UpsertGame: insert-or-update of the games row keyed by appid; only the
name column is written on conflict. -/
def UpsertGame (db : DB) (appid : Int) (name : String) : DB :=
  if db.games.any (fun g => g.appid == appid) then
    { db with games := db.games.map (fun g => if g.appid == appid then { g with name := name } else g) }
  else
    { db with games := db.games ++
        [{ appid := appid, name := name, achievementsCount := none, schemaCheckedAt := none }] }

/-- Upsert of one achievement_catalog row keyed by (appid, apiname). -/
def upsertAchievementDef (rows : List AchievementDef) (d : AchievementDef) : List AchievementDef :=
  if rows.any (fun r => r.appid == d.appid && r.apiname == d.apiname) then
    rows.map (fun r => if r.appid == d.appid && r.apiname == d.apiname then
      { r with name := d.name, descr := d.descr } else r)
  else rows ++ [d]

/-- UpsertAchievementDefs: transactional upsert of all given catalog rows. -/
def UpsertAchievementDefs (db : DB) (defs : List AchievementDef) : DB :=
  { db with catalog := defs.foldl upsertAchievementDef db.catalog }

/-- Predicate for the UNIQUE (steamid, appid, catalog_hash, state_hash)
dedup key of the snapshots table. -/
def matchesKey (inp : SnapshotInsert) (s : Snapshot) : Bool :=
  s.steamid == inp.steamid && s.appid == inp.appid &&
    s.catalogHash == inp.catalogHash && s.stateHash == inp.stateHash

/-- Ordering used by the id-recovering select inside InsertSnapshot, which
orders matching rows by taken_at descending. -/
def snapLater (a b : Snapshot) : Prop := b.takenAt ≤ a.takenAt

instance : DecidableRel snapLater := fun a b => by unfold snapLater; infer_instance

/-- Upsert of one snapshot_achievements row keyed by (snapshot_id, apiname);
only the achieved column is written on conflict. -/
def upsertSnapshotAch (rows : List SnapshotAchievement) (id : Int) (appid : Int) (a : AchState) :
    List SnapshotAchievement :=
  if rows.any (fun r => r.snapshotId == id && r.apiname == a.apiname) then
    rows.map (fun r => if r.snapshotId == id && r.apiname == a.apiname then
      { r with achieved := a.achieved } else r)
  else rows ++ [{ snapshotId := id, appid := appid, apiname := a.apiname, achieved := a.achieved }]

/-- InsertSnapshot: in one transaction, insert the snapshot header unless a
row with the same dedup key exists, select the identifier of the matching
row (newest taken_at first), and upsert the per-snapshot achievement rows
under that identifier. -/
def InsertSnapshot (db : DB) (now : Int) (inp : SnapshotInsert) : Int × DB :=
  let hasRow := db.snapshots.any (matchesKey inp)
  let snaps := if hasRow then db.snapshots else
    db.snapshots ++ [{ id := db.nextSnapshotId, steamid := inp.steamid, appid := inp.appid,
                       totalDone := inp.totalDone, totalAvailable := inp.totalAvailable,
                       catalogHash := inp.catalogHash, stateHash := inp.stateHash, takenAt := now }]
  let nextId := if hasRow then db.nextSnapshotId else db.nextSnapshotId + 1
  let id := (((List.insertionSort snapLater (snaps.filter (matchesKey inp))).head?).map
    (fun s => s.id)).getD 0
  let achRows := inp.achievements.foldl (fun rows a => upsertSnapshotAch rows id inp.appid a)
    db.snapshotAchievements
  (id, { db with snapshots := snaps, nextSnapshotId := nextId, snapshotAchievements := achRows })

/-- Ordering of the snapshot listing queries: taken_at descending with id
descending as tie-breaker. -/
def snapNewer (a b : Snapshot) : Prop :=
  b.takenAt < a.takenAt ∨ (b.takenAt = a.takenAt ∧ b.id ≤ a.id)

instance : DecidableRel snapNewer := fun a b => by unfold snapNewer; infer_instance

instance : IsTotal Snapshot snapNewer :=
  ⟨fun a b => by unfold snapNewer; omega⟩

instance : IsTrans Snapshot snapNewer :=
  ⟨fun a b c h1 h2 => by unfold snapNewer at *; omega⟩

/-- GetLatestSnapshots: the newest rows for (steamid, appid), newest first;
a non-positive limit is replaced by 2. -/
def GetLatestSnapshots (db : DB) (steamid : String) (appid : Int) (limit : Int) : List Snapshot :=
  let lim := if limit ≤ 0 then 2 else limit
  (List.insertionSort snapNewer
    (db.snapshots.filter (fun s => s.steamid == steamid && s.appid == appid))).take lim.toNat

/-! ## service/ingest.go: ingestion -/

/-- Count of true values ranged over the achieved map (embedded as an
association list whose keys are distinct, as Go map keys are). -/
def countTrue (m : List (String × Bool)) : Nat := (m.filter (fun p => p.2)).length

/-- The SnapshotInsert record computed by IngestOneGame from its inputs:
totals, catalog hash, sorted achievement rows and state hash. -/
def mkSnapshotInsert (steamid : String) (appid : Int) (apinames : List String)
    (achieved : List (String × Bool)) : SnapshotInsert :=
  { steamid := steamid
    appid := appid
    totalDone := (countTrue achieved : Int)
    totalAvailable := (apinames.length : Int)
    catalogHash := CatalogHash appid apinames
    stateHash := StateHash appid (BuildSnapshotAchievements achieved)
    achievements := BuildSnapshotAchievements achieved }

/-- IngestOneGame: compute totals and hashes for one (steamid, appid) and
persist the snapshot atomically, returning the snapshot identifier
(existing or newly inserted, per the UNIQUE dedup). -/
def IngestOneGame (db : DB) (now : Int) (steamid : String) (appid : Int)
    (apinames : List String) (achieved : List (String × Bool)) : Int × DB :=
  InsertSnapshot db now (mkSnapshotInsert steamid appid apinames achieved)

/-- unchangedAgainstLatest: true when the computed summary and hashes match
the latest snapshot for (steamid, appid). -/
def unchangedAgainstLatest (db : DB) (steamid : String) (appid : Int)
    (totalDone totalAvail : Int) (catHash stateHash : String) : Bool :=
  match (GetLatestSnapshots db steamid appid 1).head? with
  | none => false
  | some prev =>
      prev.totalDone == totalDone && prev.totalAvailable == totalAvail &&
        prev.catalogHash == catHash && prev.stateHash == stateHash

def firstNonEmpty (a b : String) : String := if a ≠ "" then a else b

/-! ## compare package: comparison rows and CSV export

The float64 percentages are modelled by rationals; the two stdlib
formatting collaborators (fixed four-decimal float rendering and RFC3339
time rendering) are modelled below. -/

/-- Models the Go fmt verb used for percentages: fixed four-decimal
rendering, with float64 values modelled as rationals and ties rounded to
even as in IEEE formatting. -/
def fmt4 (q : ℚ) : String :=
  let a : ℚ := if q < 0 then -q else q
  let scaled : ℚ := a * 10000
  let fl : ℤ := ⌊scaled⌋
  let fr : ℚ := scaled - (fl : ℚ)
  let n : ℤ := if 1/2 < fr then fl + 1 else if fr < 1/2 then fl else if fl % 2 = 0 then fl else fl + 1
  let fs := toString (n % 10000).toNat
  let pad := String.mk (List.replicate (4 - fs.length) (Char.ofNat 48))
  (if q < 0 then "-" else "") ++ toString (n / 10000) ++ "." ++ pad ++ fs

/-- Models Go time formatting in RFC3339; timestamps are abstract integer
instants in this embedding, rendered through their decimal form. -/
def rfc3339 (t : Int) : String := toString t

/-- Comparison row assembled by the compare package. -/
structure Row where
  steamid : String
  appid : Int
  prevTakenAt : Option Int
  currTakenAt : Int
  prevDone : Int
  prevTotal : Int
  currDone : Int
  currTotal : Int
  deltaDone : Int
  deltaTotal : Int
  prevPct : ℚ
  currPct : ℚ
  deltaPct : ℚ
  wasCompleted : Bool
  completedNow : Bool
  newContent : Bool
  regression : Bool
  added : List String
  removed : List String
  newlyEarned : List String
  lost : List String

/-- Completion percentage on the 0 to 100 scale, zero when the total is
not positive. -/
def pct (done total : Int) : ℚ :=
  if total ≤ 0 then 0 else ((done : ℚ) / (total : ℚ)) * 100

/-- BuildRow assembles a comparison row from the optional previous
snapshot, the current snapshot and the achievement diff. -/
def BuildRow (prev : Option Snapshot) (curr : Snapshot) (diff : AchievementDiff) : Row :=
  let currDone := curr.totalDone
  let currTotal := curr.totalAvailable
  let currPct := pct curr.totalDone curr.totalAvailable
  let prevPart : Int × Int × Option Int × ℚ × Int × Int × ℚ × Bool :=
    match prev with
    | some p =>
        (p.totalDone, p.totalAvailable, some p.takenAt, pct p.totalDone p.totalAvailable,
          currDone - p.totalDone, currTotal - p.totalAvailable,
          currPct - pct p.totalDone p.totalAvailable,
          (p.totalDone == p.totalAvailable) && decide (0 < p.totalAvailable))
    | none => (0, 0, none, 0, currDone, currTotal, currPct, false)
  let wasCompleted := prevPart.2.2.2.2.2.2.2
  let deltaTotal := prevPart.2.2.2.2.2.1
  { steamid := curr.steamid
    appid := curr.appid
    prevTakenAt := prevPart.2.2.1
    currTakenAt := curr.takenAt
    prevDone := prevPart.1
    prevTotal := prevPart.2.1
    currDone := currDone
    currTotal := currTotal
    deltaDone := prevPart.2.2.2.2.1
    deltaTotal := deltaTotal
    prevPct := prevPart.2.2.2.1
    currPct := currPct
    deltaPct := prevPart.2.2.2.2.2.2.1
    wasCompleted := wasCompleted
    completedNow := (currDone == currTotal) && decide (0 < currTotal)
    newContent := decide (0 < deltaTotal)
    regression := wasCompleted && decide (currDone < currTotal)
    added := diff.added
    removed := diff.removed
    newlyEarned := diff.newlyEarned
    lost := diff.lost }

/-- CSVHeader returns the export header. -/
def CSVHeader : List String :=
  ["steamid", "appid",
   "prev_done", "prev_total", "prev_pct", "prev_taken_at",
   "curr_done", "curr_total", "curr_pct", "curr_taken_at",
   "delta_done", "delta_total", "delta_pct",
   "completed_now", "was_completed", "regression", "new_content",
   "added", "removed", "newly_earned", "lost"]

def boolStr (b : Bool) : String := if b then "true" else "false"

/-- strJoin joins a list comma-separated with no spaces. -/
def strJoin (xs : List String) : String :=
  match xs with
  | [] => ""
  | x :: rest => rest.foldl (fun out c => out ++ "," ++ c) x

/-- ToCSV flattens the row for CSV export; lists are comma-separated. -/
def Row.ToCSV (r : Row) : List String :=
  let prevAt := match r.prevTakenAt with
    | some t => rfc3339 t
    | none => ""
  [r.steamid,
   toString r.appid,
   toString r.prevDone,
   toString r.prevTotal,
   fmt4 r.prevPct,
   prevAt,
   toString r.currDone,
   toString r.currTotal,
   fmt4 r.currPct,
   rfc3339 r.currTakenAt,
   toString r.deltaDone,
   toString r.deltaTotal,
   fmt4 r.deltaPct,
   boolStr r.completedNow,
   boolStr r.wasCompleted,
   boolStr r.regression,
   boolStr r.newContent,
   strJoin r.added,
   strJoin r.removed,
   strJoin r.newlyEarned,
   strJoin r.lost]

/-- joinCSV is the minimal CSV joiner of ingest.go. -/
def joinCSV (cols : List String) : String :=
  match cols with
  | [] => ""
  | c :: rest => rest.foldl (fun out x => out ++ "," ++ x) c

/-- One output line per row, each terminated by a newline as Fprintln does. -/
def csvLines : List Row → String
  | [] => ""
  | r :: rest => joinCSV r.ToCSV ++ "\n" ++ csvLines rest

/-- WriteCSV writes the header line followed by one line per row. -/
def WriteCSV (rows : List Row) : String :=
  joinCSV CSVHeader ++ "\n" ++ csvLines rows

/-! ## service/ingest.go: the refresh orchestrator

The worker pool is embedded by its sequential schedule: in the source the
queue is fully populated and closed before any worker starts, workers
drain it exactly once, and the per-item steps run strictly in order
inside one worker; the embedding folds the per-item body over the queued
list in order.  Remote calls are logged in a trace so that cache-gate
claims about issued calls are statable.  Two variants of the run are
embedded: processItem with an infallible repository (the failure cases it
omits do not touch the cache-gate or fetch-failure behavior), and
processItemE over a fallible repository with an explicit fault oracle,
together with the nondeterministic choice of the final join select, which
the statistics claim needs: a worker that hits a repository failure
buffers the error and terminates, and the join select between the closed
done channel and the buffered error is decided arbitrarily. -/

/-- Owned game entry returned by the remote enumeration. -/
structure OwnedGame where
  appid : Int
  name : String
deriving DecidableEq

/-- Schema achievement definition returned by the remote schema fetch. -/
structure SchemaAch where
  apiname : String
  name : String
  descr : String
deriving DecidableEq

/-- Player achievement state entry returned by the remote state fetch. -/
structure PlayerState where
  apiname : String
  achieved : Bool
deriving DecidableEq

/-- The remote source capability: owned enumeration, per-item schema fetch
(none models a fetch error) and per-item player state fetch (none models
an error, which the source treats as no data). -/
structure SteamClient where
  owned : String → List OwnedGame
  schemas : Int → Option (List SchemaAch × String)
  player : String → Int → Option (List PlayerState)

inductive CallKind where
  | schema
  | player
deriving DecidableEq

/-- A logged remote call of the refresh run. -/
structure RemoteCall where
  kind : CallKind
  appid : Int
deriving DecidableEq

/-- RefreshStats reports what happened during a refresh run. -/
structure RefreshStats where
  owned : Nat
  queued : Nat
  checked : Nat
  updated : Nat
  skipped : Nat
  skippedCached : Nat
  snapshots : Nat
deriving DecidableEq

def RefreshStats.zero : RefreshStats :=
  { owned := 0, queued := 0, checked := 0, updated := 0, skipped := 0,
    skippedCached := 0, snapshots := 0 }

/-- State threaded through the refresh run: database, counters and the
trace of remote calls issued so far. -/
structure WorkerState where
  db : DB
  stats : RefreshStats
  trace : List RemoteCall
deriving DecidableEq

/-- The cache-gate decision of the queue phase: skip when the cache read
succeeds, the cached count is known and exactly zero, and the checked-at
timestamp is within the TTL of the current time. -/
def gateSkip (db : DB) (now ttl : Int) (appid : Int) : Bool :=
  match GetGameSchemaCache db appid with
  | some (some achCount, some checkedAt) => achCount == 0 && decide (now - checkedAt < ttl)
  | _ => false

/-- The schema-fetch failure branch of the worker: re-read the cache and
write back the previously known count (or zero when none is known) with
the current timestamp. -/
def onSchemaFetchError (db : DB) (appid : Int) (now : Int) : DB :=
  UpdateGameSchemaCache db appid
    (match GetGameSchemaCache db appid with
     | some (some ach, _) => ach
     | _ => 0)
    now

/-- Go map assignment on the association-list embedding of a map:
overwrite the entry when the key is present, append it otherwise. -/
def mapSet (m : List (String × Bool)) (k : String) (v : Bool) : List (String × Bool) :=
  if m.any (fun p => p.1 == k) then m.map (fun p => if p.1 == k then (k, v) else p)
  else m ++ [(k, v)]

/-- The achieved map built per item: every schema capability defaults to
false, then the player-state entries are overlaid. -/
def buildAchievedMap (defs : List SchemaAch) (states : List PlayerState) : List (String × Bool) :=
  states.foldl (fun m s => mapSet m s.apiname s.achieved)
    (defs.foldl (fun m d => mapSet m d.apiname false) [])

/-- The per-item body of a worker, steps (a) to (i) of the refresh loop. -/
def processItem (client : SteamClient) (steamid : String) (now : Int)
    (st : WorkerState) (g : OwnedGame) : WorkerState :=
  let tr := st.trace ++ [{ kind := CallKind.schema, appid := g.appid }]
  match client.schemas g.appid with
  | none =>
      { db := onSchemaFetchError st.db g.appid now, stats := st.stats, trace := tr }
  | some (defs, gameName) =>
      let db := UpdateGameSchemaCache st.db g.appid (defs.length : Int) now
      if defs.length = 0 then { db := db, stats := st.stats, trace := tr }
      else
        let db := UpsertGame db g.appid (firstNonEmpty gameName g.name)
        let db := UpsertAchievementDefs db (defs.map (fun d =>
          { appid := g.appid, apiname := d.apiname, name := d.name, descr := d.descr }))
        let states := (client.player steamid g.appid).getD []
        let tr := tr ++ [{ kind := CallKind.player, appid := g.appid }]
        let achievedMap := buildAchievedMap defs states
        let apilist := defs.map (fun d => d.apiname)
        let totalAvail : Int := (apilist.length : Int)
        let totalDone : Int := (countTrue achievedMap : Int)
        let catHash := CatalogHash g.appid apilist
        let items := BuildSnapshotAchievements achievedMap
        let stHash := StateHash g.appid items
        let stats := { st.stats with checked := st.stats.checked + 1 }
        if unchangedAgainstLatest db steamid g.appid totalDone totalAvail catHash stHash then
          { db := db, stats := { stats with skipped := stats.skipped + 1 }, trace := tr }
        else
          let res := IngestOneGame db now steamid g.appid apilist achievedMap
          { db := res.2
            stats := { stats with updated := stats.updated + 1, snapshots := stats.snapshots + 1 }
            trace := tr }

/-- RefreshUserConcurrent, embedded as its sequential schedule: enumerate
owned items, run the cache gate over all of them against the initial
database (in the source the queue phase completes before workers start),
then process every queued item in order. -/
def RefreshUserConcurrent (client : SteamClient) (db : DB) (steamid : String)
    (workers : Int) (now ttl : Int) : WorkerState :=
  let _workers := if workers ≤ 0 then 1 else workers
  let owned := client.owned steamid
  if owned.length = 0 then { db := db, stats := RefreshStats.zero, trace := [] }
  else
    let queued := owned.filter (fun g => !gateSkip db now ttl g.appid)
    let skippedCached := (owned.filter (fun g => gateSkip db now ttl g.appid)).length
    let stats0 := { RefreshStats.zero with
      owned := owned.length, queued := queued.length, skippedCached := skippedCached }
    let st0 : WorkerState := { db := db, stats := stats0, trace := [] }
    queued.foldl (processItem client steamid now) st0

/-- Failure oracle for the repository operations whose errors the worker
escalates; true means that operation fails when invoked for that item.
The schema-cache read and write are not included because the source
discards their errors, and the snapshot read is the one inside
unchangedAgainstLatest.  Each escalating operation runs at most once per
item, so keying the oracle by item identifier is faithful. -/
structure RepoFaults where
  upsertGameFails : Int → Bool
  upsertDefsFails : Int → Bool
  latestReadFails : Int → Bool
  insertSnapshotFails : Int → Bool

/-- The per-item body of a worker over the fallible repository: identical
to processItem except that each escalating repository call may fail, in
which case the operation writes nothing, the worker buffers the error
(the error channel has one slot per worker, so the buffered send always
succeeds) and terminates; true in the second component marks that
termination.  The checked counter is incremented before the snapshot read
and the snapshot insert, exactly as in the source. -/
def processItemE (faults : RepoFaults) (client : SteamClient) (steamid : String) (now : Int)
    (st : WorkerState) (g : OwnedGame) : WorkerState × Bool :=
  let tr := st.trace ++ [{ kind := CallKind.schema, appid := g.appid }]
  match client.schemas g.appid with
  | none =>
      ({ db := onSchemaFetchError st.db g.appid now, stats := st.stats, trace := tr }, false)
  | some (defs, gameName) =>
      let db := UpdateGameSchemaCache st.db g.appid (defs.length : Int) now
      if defs.length = 0 then ({ db := db, stats := st.stats, trace := tr }, false)
      else if faults.upsertGameFails g.appid then
        ({ db := db, stats := st.stats, trace := tr }, true)
      else
        let db := UpsertGame db g.appid (firstNonEmpty gameName g.name)
        if faults.upsertDefsFails g.appid then
          ({ db := db, stats := st.stats, trace := tr }, true)
        else
          let db := UpsertAchievementDefs db (defs.map (fun d =>
            { appid := g.appid, apiname := d.apiname, name := d.name, descr := d.descr }))
          let states := (client.player steamid g.appid).getD []
          let tr := tr ++ [{ kind := CallKind.player, appid := g.appid }]
          let achievedMap := buildAchievedMap defs states
          let apilist := defs.map (fun d => d.apiname)
          let totalAvail : Int := (apilist.length : Int)
          let totalDone : Int := (countTrue achievedMap : Int)
          let catHash := CatalogHash g.appid apilist
          let items := BuildSnapshotAchievements achievedMap
          let stHash := StateHash g.appid items
          let stats := { st.stats with checked := st.stats.checked + 1 }
          if faults.latestReadFails g.appid then
            ({ db := db, stats := stats, trace := tr }, true)
          else if unchangedAgainstLatest db steamid g.appid totalDone totalAvail catHash stHash then
            ({ db := db, stats := { stats with skipped := stats.skipped + 1 }, trace := tr }, false)
          else if faults.insertSnapshotFails g.appid then
            ({ db := db, stats := stats, trace := tr }, true)
          else
            let res := IngestOneGame db now steamid g.appid apilist achievedMap
            ({ db := res.2
               stats := { stats with updated := stats.updated + 1, snapshots := stats.snapshots + 1 }
               trace := tr }, false)

/-- The worker loop over the fallible repository: items are processed in
order until the queue drains or the worker terminates on a buffered
repository error (in a one-worker schedule nobody else drains the rest of
the queue); the flag reports whether such an error was buffered. -/
def runWorkerE (faults : RepoFaults) (client : SteamClient) (steamid : String) (now : Int) :
    List OwnedGame → WorkerState → WorkerState × Bool
  | [], st => (st, false)
  | g :: rest, st =>
      let r := processItemE faults client steamid now st g
      if r.2 then (r.1, true) else runWorkerE faults client steamid now rest r.1

/-- RefreshUserConcurrent over the fallible repository.  The first
component is the final state, the second records whether a worker
terminated on a repository failure, and the third is the error returned
to the caller: when an error is buffered and the workers have finished,
the join select has both the closed done channel and the error channel
ready and chooses arbitrarily — the pickDone argument resolves that
choice, and choosing done returns a nil error even though a repository
operation failed.  The embedding never cancels the context. -/
def RefreshUserConcurrentE (faults : RepoFaults) (client : SteamClient) (db : DB)
    (steamid : String) (workers : Int) (now ttl : Int) (pickDone : Bool) :
    WorkerState × Bool × Option Unit :=
  let _workers := if workers ≤ 0 then 1 else workers
  let owned := client.owned steamid
  if owned.length = 0 then ({ db := db, stats := RefreshStats.zero, trace := [] }, false, none)
  else
    let queued := owned.filter (fun g => !gateSkip db now ttl g.appid)
    let skippedCached := (owned.filter (fun g => gateSkip db now ttl g.appid)).length
    let stats0 := { RefreshStats.zero with
      owned := owned.length, queued := queued.length, skippedCached := skippedCached }
    let st0 : WorkerState := { db := db, stats := stats0, trace := [] }
    let r := runWorkerE faults client steamid now queued st0
    (r.1, r.2, if r.2 && !pickDone then some () else none)

/-! ## Helper lemmas -/

theorem sortStrings_eq_of_perm {l₁ l₂ : List String} (h : l₁.Perm l₂) :
    sortStrings l₁ = sortStrings l₂ :=
  List.eq_of_perm_of_sorted
    ((List.perm_insertionSort _ l₁).trans (h.trans (List.perm_insertionSort _ l₂).symm))
    (List.sorted_insertionSort _ l₁) (List.sorted_insertionSort _ l₂)

theorem lookupAch_isSome_of_mem_keys {a : List SnapshotAchievement} {k : String}
    (h : k ∈ achKeys a) : (lookupAch a k).isSome := by
  unfold achKeys at h
  rw [List.mem_dedup] at h
  obtain ⟨x, hx, rfl⟩ := List.mem_map.mp h
  unfold lookupAch
  rcases hf : (a.reverse.find? (fun y => y.apiname == x.apiname)) with _ | y
  · exfalso
    have : (a.reverse.find? (fun y => y.apiname == x.apiname)).isSome := by
      rw [List.find?_isSome]
      exact ⟨x, by simpa using hx, by simp⟩
    rw [hf] at this
    simp at this
  · rw [hf]
    rfl

/-! ## Claims about the fingerprinting component -/

/-- Claim C5: for every item identifier, CatalogHash is invariant under any
permutation of the capability-id list and StateHash is invariant under any
permutation of the state vector. -/
theorem fingerprints_perm_invariant :
    (∀ (appid : Int) (xs ys : List String), xs.Perm ys →
      CatalogHash appid xs = CatalogHash appid ys) ∧
    (∀ (appid : Int) (xs ys : List AchState), xs.Perm ys →
      StateHash appid xs = StateHash appid ys) := by
  constructor
  · intro appid xs ys h
    unfold CatalogHash
    rw [h.length_eq,
      sortStrings_eq_of_perm (h.map (fun n => toString appid ++ "|" ++ n.trim))]
  · intro appid xs ys h
    unfold StateHash
    rw [h.length_eq,
      sortStrings_eq_of_perm (h.map (fun it =>
        toString appid ++ "|" ++ it.apiname.trim ++ "|" ++ (if it.achieved then "1" else "0")))]

/-- Claim C5 witness: the invariance at concrete permuted inputs. -/
theorem fingerprints_perm_invariant_witness :
    CatalogHash 10 ["beta", "alpha"] = CatalogHash 10 ["alpha", "beta"] ∧
      StateHash 10 [{ apiname := "x", achieved := true }, { apiname := "y", achieved := false }] =
        StateHash 10 [{ apiname := "y", achieved := false }, { apiname := "x", achieved := true }] :=
  ⟨fingerprints_perm_invariant.1 10 _ _ (by decide),
   fingerprints_perm_invariant.2 10 _ _ (by decide)⟩

/-- Claim C6: diffing a state vector against itself yields four empty lists, and
all four diff lists are always sorted ascending by capability identifier. -/
theorem diff_refl_empty_and_sorted :
    (∀ a : List SnapshotAchievement,
      DiffSnapshotAchievements a a =
        { added := [], removed := [], newlyEarned := [], lost := [] }) ∧
    (∀ prev curr : List SnapshotAchievement,
      (DiffSnapshotAchievements prev curr).added.Sorted (fun a b : String => a ≤ b) ∧
      (DiffSnapshotAchievements prev curr).removed.Sorted (fun a b : String => a ≤ b) ∧
      (DiffSnapshotAchievements prev curr).newlyEarned.Sorted (fun a b : String => a ≤ b) ∧
      (DiffSnapshotAchievements prev curr).lost.Sorted (fun a b : String => a ≤ b)) := by
  constructor
  · intro a
    have hmem : ∀ k ∈ achKeys a, ¬((lookupAch a k).isNone = true) := by
      intro k hk
      have := lookupAch_isSome_of_mem_keys hk
      simp [Option.isNone_iff_eq_none]
      rcases hv : lookupAch a k with _ | b
      · rw [hv] at this; simp at this
      · simp
    have hboth : ∀ o : Option Bool, ((o == some false) && (o == some true)) = false := by decide
    have hboth2 : ∀ o : Option Bool, ((o == some true) && (o == some false)) = false := by decide
    unfold DiffSnapshotAchievements
    have h1 : (achKeys a).filter (fun k => (lookupAch a k).isNone) = [] :=
      List.filter_eq_nil_iff.mpr hmem
    have h2 : (achKeys a).filter
        (fun k => lookupAch a k == some false && lookupAch a k == some true) = [] :=
      List.filter_eq_nil_iff.mpr (fun k _ => by simp [hboth (lookupAch a k)])
    have h3 : (achKeys a).filter
        (fun k => lookupAch a k == some true && lookupAch a k == some false) = [] :=
      List.filter_eq_nil_iff.mpr (fun k _ => by simp [hboth2 (lookupAch a k)])
    rw [h1, h2, h3]
    rfl
  · intro prev curr
    exact ⟨List.sorted_insertionSort _ _, List.sorted_insertionSort _ _,
      List.sorted_insertionSort _ _, List.sorted_insertionSort _ _⟩

/-! ## Claims about the comparison builder and the CSV export -/

/-- Claim C4: for every comparison row built from a current snapshot and an
optional previous snapshot (previous treated as 0 and 0 when absent), the
was-complete flag holds iff the previous total is positive and the previous
done count equals it; the complete-now flag holds iff the current total is
positive and the current done count equals it; the new-content flag holds
iff the current total exceeds the previous total; and the regression flag
holds iff the row was complete and the current total exceeds the current
done count. -/
theorem buildRow_flags (prev : Option Snapshot) (curr : Snapshot) (diff : AchievementDiff) :
    ((BuildRow prev curr diff).wasCompleted = true ↔
      (0 < prev.elim 0 (fun p => p.totalAvailable) ∧
        prev.elim 0 (fun p => p.totalDone) = prev.elim 0 (fun p => p.totalAvailable))) ∧
    ((BuildRow prev curr diff).completedNow = true ↔
      (0 < curr.totalAvailable ∧ curr.totalDone = curr.totalAvailable)) ∧
    ((BuildRow prev curr diff).newContent = true ↔
      prev.elim 0 (fun p => p.totalAvailable) < curr.totalAvailable) ∧
    ((BuildRow prev curr diff).regression = true ↔
      ((BuildRow prev curr diff).wasCompleted = true ∧
        curr.totalDone < curr.totalAvailable)) := by
  cases prev <;> simp [BuildRow] <;> omega

/-- Claim C8: the CSV export of zero rows is exactly the header line; the export
of one row is the header line followed by exactly one data line; and the
data line fields appear in the documented column order. -/
theorem writeCSV_shape :
    (WriteCSV [] = joinCSV CSVHeader ++ "\n") ∧
    (∀ r : Row, WriteCSV [r] = joinCSV CSVHeader ++ "\n" ++ (joinCSV r.ToCSV ++ "\n")) ∧
    (CSVHeader =
      ["steamid", "appid",
       "prev_done", "prev_total", "prev_pct", "prev_taken_at",
       "curr_done", "curr_total", "curr_pct", "curr_taken_at",
       "delta_done", "delta_total", "delta_pct",
       "completed_now", "was_completed", "regression", "new_content",
       "added", "removed", "newly_earned", "lost"]) ∧
    (∀ r : Row, r.ToCSV =
      [r.steamid, toString r.appid,
       toString r.prevDone, toString r.prevTotal, fmt4 r.prevPct,
       (match r.prevTakenAt with | some t => rfc3339 t | none => ""),
       toString r.currDone, toString r.currTotal, fmt4 r.currPct, rfc3339 r.currTakenAt,
       toString r.deltaDone, toString r.deltaTotal, fmt4 r.deltaPct,
       boolStr r.completedNow, boolStr r.wasCompleted, boolStr r.regression,
       boolStr r.newContent,
       strJoin r.added, strJoin r.removed, strJoin r.newlyEarned, strJoin r.lost]) := by
  refine ⟨?_, ?_, rfl, fun r => rfl⟩
  · simp [WriteCSV, csvLines]
  · intro r
    simp [WriteCSV, csvLines, String.append_assoc]

/-! ## Claims about the repository -/

/-- Claim C10: a non-positive limit behaves exactly as the limit 2: the result is
the same list, has at most two entries, is ordered newest first, and every
returned row belongs to the requested (steamid, appid). -/
theorem getLatestSnapshots_nonpositive_limit (db : DB) (steamid : String) (appid : Int)
    (limit : Int) (h : limit ≤ 0) :
    GetLatestSnapshots db steamid appid limit = GetLatestSnapshots db steamid appid 2 ∧
    (GetLatestSnapshots db steamid appid limit).length ≤ 2 ∧
    (GetLatestSnapshots db steamid appid limit).Sorted snapNewer ∧
    ∀ s ∈ GetLatestSnapshots db steamid appid limit, s.steamid = steamid ∧ s.appid = appid := by
  have heq : GetLatestSnapshots db steamid appid limit = GetLatestSnapshots db steamid appid 2 := by
    unfold GetLatestSnapshots
    rw [if_pos h, if_neg (by omega)]
  have hlen : (GetLatestSnapshots db steamid appid 2).length ≤ 2 := by
    unfold GetLatestSnapshots
    rw [if_neg (by omega), List.length_take]
    exact Nat.min_le_left _ _
  have hsorted : (GetLatestSnapshots db steamid appid 2).Sorted snapNewer := by
    unfold GetLatestSnapshots
    exact List.Pairwise.sublist (List.take_sublist _ _) (List.sorted_insertionSort _ _)
  have hmem : ∀ s ∈ GetLatestSnapshots db steamid appid 2,
      s.steamid = steamid ∧ s.appid = appid := by
    intro s hs
    unfold GetLatestSnapshots at hs
    rw [if_neg (by omega)] at hs
    have h1 := (List.take_sublist _ _).subset hs
    have h2 := (List.perm_insertionSort snapNewer _).subset h1
    have h3 := List.mem_filter.mp h2
    have h4 := h3.2
    simp only [Bool.and_eq_true, beq_iff_eq] at h4
    exact h4
  rw [heq]
  exact ⟨rfl, hlen, hsorted, hmem⟩

/-- Concrete database used by the repository witnesses. -/
def dbSnapsW : DB :=
  { games := [], catalog := []
    snapshots :=
      [{ id := 1, steamid := "u", appid := 1, totalDone := 0, totalAvailable := 2,
         catalogHash := "c", stateHash := "s", takenAt := 10 },
       { id := 2, steamid := "u", appid := 1, totalDone := 1, totalAvailable := 2,
         catalogHash := "c2", stateHash := "s2", takenAt := 20 },
       { id := 3, steamid := "v", appid := 1, totalDone := 0, totalAvailable := 1,
         catalogHash := "c", stateHash := "s", takenAt := 5 }]
    snapshotAchievements := [], nextSnapshotId := 4 }

/-- Claim C10 witness: the limit-coercion equality and the length bound at a
concrete database with three snapshots and limit zero. -/
theorem getLatestSnapshots_nonpositive_limit_witness :
    GetLatestSnapshots dbSnapsW "u" 1 0 = GetLatestSnapshots dbSnapsW "u" 1 2 ∧
      (GetLatestSnapshots dbSnapsW "u" 1 0).length ≤ 2 :=
  ⟨(getLatestSnapshots_nonpositive_limit dbSnapsW "u" 1 0 (by decide)).1,
   (getLatestSnapshots_nonpositive_limit dbSnapsW "u" 1 0 (by decide)).2.1⟩

/-! ## InsertSnapshot characterization helpers -/

theorem insertSnapshot_fresh {db : DB} {inp : SnapshotInsert} (now : Int)
    (h : db.snapshots.any (matchesKey inp) = false) :
    (InsertSnapshot db now inp).1 = db.nextSnapshotId ∧
    (InsertSnapshot db now inp).2.snapshots =
      db.snapshots ++
        [{ id := db.nextSnapshotId, steamid := inp.steamid, appid := inp.appid,
           totalDone := inp.totalDone, totalAvailable := inp.totalAvailable,
           catalogHash := inp.catalogHash, stateHash := inp.stateHash, takenAt := now }] := by
  have hfil : db.snapshots.filter (matchesKey inp) = [] := by
    rw [List.filter_eq_nil_iff]
    intro x hx hmx
    have habs : db.snapshots.any (matchesKey inp) = true := List.any_eq_true.mpr ⟨x, hx, hmx⟩
    rw [h] at habs
    exact Bool.false_ne_true habs
  constructor
  · unfold InsertSnapshot
    simp [h, hfil, matchesKey, List.insertionSort, List.orderedInsert]
  · unfold InsertSnapshot
    simp [h]

theorem insertSnapshot_existing {db : DB} {inp : SnapshotInsert} (now : Int) {r : Snapshot}
    (h : db.snapshots.filter (matchesKey inp) = [r]) :
    (InsertSnapshot db now inp).1 = r.id ∧
    (InsertSnapshot db now inp).2.snapshots = db.snapshots := by
  have hany : db.snapshots.any (matchesKey inp) = true := by
    have hr : r ∈ db.snapshots.filter (matchesKey inp) := by
      rw [h]; exact List.mem_singleton_self r
    have hm := List.mem_filter.mp hr
    exact List.any_eq_true.mpr ⟨r, hm.1, hm.2⟩
  constructor
  · unfold InsertSnapshot
    simp [hany, h, List.insertionSort, List.orderedInsert]
  · unfold InsertSnapshot
    simp [hany]

/-! ## Claims about ingestion -/

/-- Claim C2: running IngestOneGame twice with identical inputs produces exactly
one persisted snapshot for the dedup tuple and both calls return the same
snapshot identifier; the second call leaves the snapshots table unchanged.
The hypothesis is the UNIQUE-constraint invariant of the snapshots table,
restricted to the tuple at hand. -/
theorem ingestOneGame_idempotent (db : DB) (now1 now2 : Int) (steamid : String) (appid : Int)
    (apinames : List String) (achieved : List (String × Bool))
    (h : (db.snapshots.filter
      (matchesKey (mkSnapshotInsert steamid appid apinames achieved))).length ≤ 1) :
    (IngestOneGame db now1 steamid appid apinames achieved).1 =
      (IngestOneGame (IngestOneGame db now1 steamid appid apinames achieved).2
        now2 steamid appid apinames achieved).1 ∧
    (IngestOneGame (IngestOneGame db now1 steamid appid apinames achieved).2
        now2 steamid appid apinames achieved).2.snapshots =
      (IngestOneGame db now1 steamid appid apinames achieved).2.snapshots ∧
    ((IngestOneGame db now1 steamid appid apinames achieved).2.snapshots.filter
      (matchesKey (mkSnapshotInsert steamid appid apinames achieved))).length = 1 := by
  by_cases hany : db.snapshots.any (matchesKey (mkSnapshotInsert steamid appid apinames achieved)) = true
  · obtain ⟨x, hx, hmx⟩ := List.any_eq_true.mp hany
    have hpos : 0 < (db.snapshots.filter
        (matchesKey (mkSnapshotInsert steamid appid apinames achieved))).length := by
      rw [List.length_pos]
      intro hnil
      have : x ∈ db.snapshots.filter (matchesKey (mkSnapshotInsert steamid appid apinames achieved)) :=
        List.mem_filter.mpr ⟨hx, hmx⟩
      rw [hnil] at this
      exact List.not_mem_nil x this
    have hone : (db.snapshots.filter
        (matchesKey (mkSnapshotInsert steamid appid apinames achieved))).length = 1 := by omega
    obtain ⟨r, hr⟩ := List.length_eq_one.mp hone
    obtain ⟨hid1, hsnap1⟩ := insertSnapshot_existing now1 hr
    have hr2 : (IngestOneGame db now1 steamid appid apinames achieved).2.snapshots.filter
        (matchesKey (mkSnapshotInsert steamid appid apinames achieved)) = [r] := by
      unfold IngestOneGame
      rw [hsnap1, hr]
    obtain ⟨hid2, hsnap2⟩ := insertSnapshot_existing now2 hr2
    refine ⟨?_, ?_, ?_⟩
    · unfold IngestOneGame at *
      rw [hid1, hid2]
    · unfold IngestOneGame at *
      rw [hsnap2]
    · unfold IngestOneGame at *
      rw [hr2]
      rfl
  · have hfalse : db.snapshots.any (matchesKey (mkSnapshotInsert steamid appid apinames achieved)) = false := by
      cases hb : db.snapshots.any (matchesKey (mkSnapshotInsert steamid appid apinames achieved))
      · rfl
      · exact absurd hb hany
    have hfil : db.snapshots.filter (matchesKey (mkSnapshotInsert steamid appid apinames achieved)) = [] := by
      rw [List.filter_eq_nil_iff]
      intro x hx hmx
      have habs := List.any_eq_true.mpr ⟨x, hx, hmx⟩
      rw [hfalse] at habs
      exact Bool.false_ne_true habs
    obtain ⟨hid1, hsnap1⟩ := insertSnapshot_fresh now1 hfalse
    have hmr : matchesKey (mkSnapshotInsert steamid appid apinames achieved)
        { id := db.nextSnapshotId, steamid := (mkSnapshotInsert steamid appid apinames achieved).steamid,
          appid := (mkSnapshotInsert steamid appid apinames achieved).appid,
          totalDone := (mkSnapshotInsert steamid appid apinames achieved).totalDone,
          totalAvailable := (mkSnapshotInsert steamid appid apinames achieved).totalAvailable,
          catalogHash := (mkSnapshotInsert steamid appid apinames achieved).catalogHash,
          stateHash := (mkSnapshotInsert steamid appid apinames achieved).stateHash,
          takenAt := now1 } = true := by
      simp [matchesKey]
    have hr2 : (IngestOneGame db now1 steamid appid apinames achieved).2.snapshots.filter
        (matchesKey (mkSnapshotInsert steamid appid apinames achieved)) =
        [{ id := db.nextSnapshotId, steamid := (mkSnapshotInsert steamid appid apinames achieved).steamid,
           appid := (mkSnapshotInsert steamid appid apinames achieved).appid,
           totalDone := (mkSnapshotInsert steamid appid apinames achieved).totalDone,
           totalAvailable := (mkSnapshotInsert steamid appid apinames achieved).totalAvailable,
           catalogHash := (mkSnapshotInsert steamid appid apinames achieved).catalogHash,
           stateHash := (mkSnapshotInsert steamid appid apinames achieved).stateHash,
           takenAt := now1 }] := by
      unfold IngestOneGame
      rw [hsnap1, List.filter_append, hfil, List.nil_append, List.filter_cons_of_pos hmr]
      rfl
    obtain ⟨hid2, hsnap2⟩ := insertSnapshot_existing now2 hr2
    refine ⟨?_, ?_, ?_⟩
    · unfold IngestOneGame at *
      rw [hid1, hid2]
    · unfold IngestOneGame at *
      rw [hsnap2]
    · unfold IngestOneGame at *
      rw [hr2]
      rfl

/-- Empty database used by the ingestion witnesses. -/
def dbEmptyW : DB :=
  { games := [], catalog := [], snapshots := [], snapshotAchievements := [], nextSnapshotId := 1 }

/-- Claim C2 witness: idempotence of a concrete double ingestion starting from
the empty database. -/
theorem ingestOneGame_idempotent_witness :
    (IngestOneGame dbEmptyW 5 "u" 10 ["a"] [("a", true)]).1 =
      (IngestOneGame (IngestOneGame dbEmptyW 5 "u" 10 ["a"] [("a", true)]).2
        6 "u" 10 ["a"] [("a", true)]).1 ∧
    (IngestOneGame (IngestOneGame dbEmptyW 5 "u" 10 ["a"] [("a", true)]).2
        6 "u" 10 ["a"] [("a", true)]).2.snapshots =
      (IngestOneGame dbEmptyW 5 "u" 10 ["a"] [("a", true)]).2.snapshots ∧
    ((IngestOneGame dbEmptyW 5 "u" 10 ["a"] [("a", true)]).2.snapshots.filter
      (matchesKey (mkSnapshotInsert "u" 10 ["a"] [("a", true)]))).length = 1 :=
  ingestOneGame_idempotent dbEmptyW 5 6 "u" 10 ["a"] [("a", true)] (by decide)

/-- Claim C7: the snapshot persisted by IngestOneGame carries total-available
equal to the length of the capability-id list and total-completed equal to
the count of true values in the achieved map, the two counted
independently of each other. -/
theorem ingestOneGame_totals (db : DB) (now : Int) (steamid : String) (appid : Int)
    (apinames : List String) (achieved : List (String × Bool))
    (h : db.snapshots.any (matchesKey (mkSnapshotInsert steamid appid apinames achieved)) = false) :
    (mkSnapshotInsert steamid appid apinames achieved).totalAvailable = (apinames.length : Int) ∧
    (mkSnapshotInsert steamid appid apinames achieved).totalDone = (countTrue achieved : Int) ∧
    (IngestOneGame db now steamid appid apinames achieved).2.snapshots =
      db.snapshots ++
        [{ id := db.nextSnapshotId, steamid := steamid, appid := appid,
           totalDone := (countTrue achieved : Int),
           totalAvailable := (apinames.length : Int),
           catalogHash := CatalogHash appid apinames,
           stateHash := StateHash appid (BuildSnapshotAchievements achieved),
           takenAt := now }] ∧
    (IngestOneGame db now steamid appid apinames achieved).1 = db.nextSnapshotId := by
  obtain ⟨h1, h2⟩ := insertSnapshot_fresh now h
  exact ⟨rfl, rfl, h2, h1⟩

/-- Claim C7 witness: the totals of a concrete ingestion whose achieved map even
contains a true entry outside the capability list. -/
theorem ingestOneGame_totals_witness :
    (mkSnapshotInsert "u" 10 ["a", "b"] [("a", true), ("zzz", true)]).totalAvailable = 2 ∧
      (mkSnapshotInsert "u" 10 ["a", "b"] [("a", true), ("zzz", true)]).totalDone = 2 ∧
      (IngestOneGame dbEmptyW 7 "u" 10 ["a", "b"] [("a", true), ("zzz", true)]).1 = 1 := by
  have h := ingestOneGame_totals dbEmptyW 7 "u" 10 ["a", "b"] [("a", true), ("zzz", true)] (by decide)
  exact ⟨h.1, h.2.1, h.2.2.2⟩

/-! ## Schema-cache update helpers -/

theorem find?_map_update (appid achCount checkedAt : Int) (gs : List GameRow)
    (hex : ∃ g ∈ gs, (g.appid == appid) = true) :
    ((gs.map (fun g => if g.appid == appid then
        { g with achievementsCount := some achCount, schemaCheckedAt := some checkedAt }
      else g)).find? (fun g => g.appid == appid)).map
        (fun g => (g.achievementsCount, g.schemaCheckedAt)) =
      some (some achCount, some checkedAt) := by
  induction gs with
  | nil =>
      obtain ⟨g, hg, _⟩ := hex
      cases hg
  | cons g gs ih =>
      obtain ⟨g0, hg0, hp0⟩ := hex
      rw [List.map_cons, List.find?_cons]
      by_cases hg : (g.appid == appid) = true
      · rw [if_pos hg]
        have hupd : (({ g with achievementsCount := some achCount, schemaCheckedAt := some checkedAt } : GameRow).appid == appid) = true := hg
        rw [hupd]
        rfl
      · rw [if_neg hg]
        have hg' : (g.appid == appid) = false := by
          cases hb : (g.appid == appid)
          · rfl
          · exact absurd hb hg
        rw [hg']
        rcases List.mem_cons.mp hg0 with hgg | hgtail
        · rw [hgg] at hp0
          exact absurd hp0 hg
        · exact ih ⟨g0, hgtail, hp0⟩

theorem getCache_after_update (db : DB) (appid achCount checkedAt : Int) :
    GetGameSchemaCache (UpdateGameSchemaCache db appid achCount checkedAt) appid =
      some (some achCount, some checkedAt) := by
  unfold UpdateGameSchemaCache
  by_cases hany : db.games.any (fun g => g.appid == appid) = true
  · rw [if_pos hany]
    unfold GetGameSchemaCache
    obtain ⟨g0, hg0, hp0⟩ := List.any_eq_true.mp hany
    exact find?_map_update appid achCount checkedAt db.games ⟨g0, hg0, hp0⟩
  · rw [if_neg hany]
    unfold GetGameSchemaCache
    have hall : ∀ g ∈ db.games, ¬(g.appid == appid) = true := by
      intro g hg hcontra
      exact hany (List.any_eq_true.mpr ⟨g, hg, hcontra⟩)
    have hnone : db.games.find? (fun g => g.appid == appid) = none :=
      List.find?_eq_none.mpr hall
    show ((db.games ++ _).find? _).map _ = _
    rw [List.find?_append, hnone]
    simp

/-! ## Claim about the schema-fetch failure branch of a worker -/

/-- Claim C1: when the remote schema fetch for an item fails, the orchestrator
advances the checked-at timestamp of the schema-cache entry to the current
time, preserves a previously known capability count whenever one exists
(never forcing a known count to zero), and the worker continues with the
remaining queued items instead of aborting the run. -/
theorem schemaFetchError_cache_and_continue (db : DB) (appid now : Int) :
    ((GetGameSchemaCache (onSchemaFetchError db appid now) appid).map (fun p => p.2) =
      some (some now)) ∧
    (∀ (c : Int) (ts : Option Int), GetGameSchemaCache db appid = some (some c, ts) →
      GetGameSchemaCache (onSchemaFetchError db appid now) appid = some (some c, some now)) ∧
    (∀ (client : SteamClient) (steamid : String) (st : WorkerState) (g : OwnedGame)
      (rest : List OwnedGame), client.schemas g.appid = none →
      List.foldl (processItem client steamid now) st (g :: rest) =
        List.foldl (processItem client steamid now)
          { db := onSchemaFetchError st.db g.appid now, stats := st.stats,
            trace := st.trace ++ [{ kind := CallKind.schema, appid := g.appid }] } rest) := by
  refine ⟨?_, ?_, ?_⟩
  · unfold onSchemaFetchError
    rw [getCache_after_update]
    rfl
  · intro c ts hc
    unfold onSchemaFetchError
    rw [hc]
    exact getCache_after_update db appid c now
  · intro client steamid st g rest hcl
    rw [List.foldl_cons]
    have hstep : processItem client steamid now st g =
        { db := onSchemaFetchError st.db g.appid now, stats := st.stats,
          trace := st.trace ++ [{ kind := CallKind.schema, appid := g.appid }] } := by
      unfold processItem
      rw [hcl]
    rw [hstep]

/-- Database and client used by the C1 witness: the item has a known
non-zero cached count and its schema fetch always errors. -/
def dbCacheW : DB :=
  { games := [{ appid := 1, name := "g", achievementsCount := some 5, schemaCheckedAt := some 10 }]
    catalog := [], snapshots := [], snapshotAchievements := [], nextSnapshotId := 1 }

def clErrW : SteamClient :=
  { owned := fun _ => [], schemas := fun _ => none, player := fun _ _ => none }

/-- Claim C1 witness: at a concrete database whose cached count is five, a failed
fetch leaves the count five, stamps the new time, and the worker step
reduces to processing the rest of the queue. -/
theorem schemaFetchError_cache_and_continue_witness :
    GetGameSchemaCache (onSchemaFetchError dbCacheW 1 99) 1 = some (some 5, some 99) ∧
    List.foldl (processItem clErrW "u" 99)
        { db := dbCacheW, stats := RefreshStats.zero, trace := [] } [{ appid := 1, name := "g" }] =
      List.foldl (processItem clErrW "u" 99)
        { db := onSchemaFetchError dbCacheW 1 99, stats := RefreshStats.zero,
          trace := [{ kind := CallKind.schema, appid := 1 }] } [] := by
  constructor
  · exact (schemaFetchError_cache_and_continue dbCacheW 1 99).2.1 5 (some 10) rfl
  · have h := (schemaFetchError_cache_and_continue dbCacheW 1 99).2.2 clErrW "u"
      { db := dbCacheW, stats := RefreshStats.zero, trace := [] } { appid := 1, name := "g" } [] rfl
    simpa using h

/-! ## Worker-pool bookkeeping lemmas -/

theorem processItem_stats (client : SteamClient) (steamid : String) (now : Int)
    (st : WorkerState) (g : OwnedGame) :
    (processItem client steamid now st g).stats.owned = st.stats.owned ∧
    (processItem client steamid now st g).stats.queued = st.stats.queued ∧
    (processItem client steamid now st g).stats.skippedCached = st.stats.skippedCached ∧
    (processItem client steamid now st g).stats.checked + st.stats.updated + st.stats.skipped =
      st.stats.checked + (processItem client steamid now st g).stats.updated +
        (processItem client steamid now st g).stats.skipped ∧
    (processItem client steamid now st g).stats.snapshots + st.stats.updated =
      st.stats.snapshots + (processItem client steamid now st g).stats.updated := by
  unfold processItem
  cases hq : client.schemas g.appid with
  | none => simp
  | some v =>
      obtain ⟨defs, gameName⟩ := v
      dsimp only
      by_cases hd : defs.length = 0
      · rw [if_pos hd]
        simp
      · rw [if_neg hd]
        split <;> simp <;> omega


theorem foldl_stats_preserved (client : SteamClient) (steamid : String) (now : Int)
    (l : List OwnedGame) :
    ∀ st : WorkerState,
      (l.foldl (processItem client steamid now) st).stats.owned = st.stats.owned ∧
      (l.foldl (processItem client steamid now) st).stats.queued = st.stats.queued ∧
      (l.foldl (processItem client steamid now) st).stats.skippedCached = st.stats.skippedCached ∧
      (l.foldl (processItem client steamid now) st).stats.checked + st.stats.updated + st.stats.skipped =
        st.stats.checked + (l.foldl (processItem client steamid now) st).stats.updated +
          (l.foldl (processItem client steamid now) st).stats.skipped ∧
      (l.foldl (processItem client steamid now) st).stats.snapshots + st.stats.updated =
        st.stats.snapshots + (l.foldl (processItem client steamid now) st).stats.updated := by
  induction l with
  | nil => intro st; simp
  | cons g gs ih =>
      intro st
      rw [List.foldl_cons]
      obtain ⟨a1, a2, a3, a4, a5⟩ := processItem_stats client steamid now st g
      obtain ⟨b1, b2, b3, b4, b5⟩ := ih (processItem client steamid now st g)
      refine ⟨by omega, by omega, by omega, by omega, by omega⟩

theorem length_filter_split {α : Type} (p : α → Bool) (l : List α) :
    (l.filter (fun a => !p a)).length + (l.filter p).length = l.length := by
  induction l with
  | nil => rfl
  | cons a t ih =>
      by_cases hp : p a = true <;> simp [List.filter_cons, hp] <;> omega

theorem processItemE_stats (faults : RepoFaults) (client : SteamClient) (steamid : String)
    (now : Int) (st : WorkerState) (g : OwnedGame) :
    (processItemE faults client steamid now st g).1.stats.owned = st.stats.owned ∧
    (processItemE faults client steamid now st g).1.stats.queued = st.stats.queued ∧
    (processItemE faults client steamid now st g).1.stats.skippedCached = st.stats.skippedCached ∧
    ((processItemE faults client steamid now st g).2 = false →
      (processItemE faults client steamid now st g).1.stats.checked + st.stats.updated + st.stats.skipped =
        st.stats.checked + (processItemE faults client steamid now st g).1.stats.updated +
          (processItemE faults client steamid now st g).1.stats.skipped ∧
      (processItemE faults client steamid now st g).1.stats.snapshots + st.stats.updated =
        st.stats.snapshots + (processItemE faults client steamid now st g).1.stats.updated) := by
  unfold processItemE
  cases hq : client.schemas g.appid with
  | none => simp
  | some v =>
      obtain ⟨defs, gameName⟩ := v
      dsimp only
      by_cases hd : defs.length = 0
      · rw [if_pos hd]
        simp
      · rw [if_neg hd]
        repeat' split
        all_goals simp
        all_goals omega

theorem runWorkerE_stats (faults : RepoFaults) (client : SteamClient) (steamid : String)
    (now : Int) :
    ∀ (l : List OwnedGame) (st : WorkerState),
      (runWorkerE faults client steamid now l st).2 = false →
      (runWorkerE faults client steamid now l st).1.stats.owned = st.stats.owned ∧
      (runWorkerE faults client steamid now l st).1.stats.queued = st.stats.queued ∧
      (runWorkerE faults client steamid now l st).1.stats.skippedCached = st.stats.skippedCached ∧
      (runWorkerE faults client steamid now l st).1.stats.checked + st.stats.updated + st.stats.skipped =
        st.stats.checked + (runWorkerE faults client steamid now l st).1.stats.updated +
          (runWorkerE faults client steamid now l st).1.stats.skipped ∧
      (runWorkerE faults client steamid now l st).1.stats.snapshots + st.stats.updated =
        st.stats.snapshots + (runWorkerE faults client steamid now l st).1.stats.updated := by
  intro l
  induction l with
  | nil =>
      intro st h
      simp [runWorkerE]
  | cons g rest ih =>
      intro st h
      rw [runWorkerE] at h ⊢
      by_cases hab : (processItemE faults client steamid now st g).2 = true
      · rw [if_pos hab] at h
        simp at h
      · rw [if_neg hab] at h ⊢
        have hab' : (processItemE faults client steamid now st g).2 = false := by
          cases hb : (processItemE faults client steamid now st g).2
          · rfl
          · exact absurd hb hab
        obtain ⟨a1, a2, a3, a45⟩ := processItemE_stats faults client steamid now st g
        obtain ⟨a4, a5⟩ := a45 hab'
        obtain ⟨b1, b2, b3, b4, b5⟩ := ih (processItemE faults client steamid now st g).1 h
        refine ⟨by omega, by omega, by omega, by omega, by omega⟩

theorem runE_invariants_aux (faults : RepoFaults) (client : SteamClient) (steamid : String)
    (now : Int) (l : List OwnedGame) (st : WorkerState)
    (hab : (runWorkerE faults client steamid now l st).2 = false)
    (h1 : st.stats.owned = st.stats.queued + st.stats.skippedCached)
    (h2 : st.stats.checked = st.stats.updated + st.stats.skipped)
    (h3 : st.stats.snapshots = st.stats.updated) :
    (runWorkerE faults client steamid now l st).1.stats.owned =
      (runWorkerE faults client steamid now l st).1.stats.queued +
        (runWorkerE faults client steamid now l st).1.stats.skippedCached ∧
    (runWorkerE faults client steamid now l st).1.stats.checked =
      (runWorkerE faults client steamid now l st).1.stats.updated +
        (runWorkerE faults client steamid now l st).1.stats.skipped ∧
    (runWorkerE faults client steamid now l st).1.stats.snapshots =
      (runWorkerE faults client steamid now l st).1.stats.updated := by
  obtain ⟨b1, b2, b3, b4, b5⟩ := runWorkerE_stats faults client steamid now l st hab
  refine ⟨by omega, by omega, by omega⟩

theorem processItem_trace (client : SteamClient) (steamid : String) (now : Int)
    (st : WorkerState) (g : OwnedGame) :
    ∀ c ∈ (processItem client steamid now st g).trace, c ∈ st.trace ∨ c.appid = g.appid := by
  unfold processItem
  cases hq : client.schemas g.appid with
  | none =>
      intro c hc
      rcases List.mem_append.mp hc with h | h
      · exact Or.inl h
      · rcases List.mem_singleton.mp h with rfl
        exact Or.inr rfl
  | some v =>
      obtain ⟨defs, gameName⟩ := v
      dsimp only
      by_cases hd : defs.length = 0
      · rw [if_pos hd]
        intro c hc
        rcases List.mem_append.mp hc with h | h
        · exact Or.inl h
        · rcases List.mem_singleton.mp h with rfl
          exact Or.inr rfl
      · rw [if_neg hd]
        intro c hc
        have hc2 : c ∈ (st.trace ++ [{ kind := CallKind.schema, appid := g.appid }]) ++
            [{ kind := CallKind.player, appid := g.appid }] := by
          split at hc
          · exact hc
          · exact hc
        rcases List.mem_append.mp hc2 with h | h
        · rcases List.mem_append.mp h with h1 | h1
          · exact Or.inl h1
          · rcases List.mem_singleton.mp h1 with rfl
            exact Or.inr rfl
        · rcases List.mem_singleton.mp h with rfl
          exact Or.inr rfl

theorem foldl_trace_appids (client : SteamClient) (steamid : String) (now : Int)
    (l : List OwnedGame) :
    ∀ (st : WorkerState) (c : RemoteCall),
      c ∈ (l.foldl (processItem client steamid now) st).trace →
      c ∈ st.trace ∨ c.appid ∈ l.map (fun g => g.appid) := by
  induction l with
  | nil =>
      intro st c hc
      exact Or.inl hc
  | cons g gs ih =>
      intro st c hc
      rw [List.foldl_cons] at hc
      rcases ih (processItem client steamid now st g) c hc with h | h
      · rcases processItem_trace client steamid now st g c h with h1 | h1
        · exact Or.inl h1
        · refine Or.inr ?_
          rw [List.map_cons, h1]
          exact List.mem_cons_self _ _
      · exact Or.inr (by rw [List.map_cons]; exact List.mem_cons_of_mem _ h)

/-! ## Claims about the refresh orchestrator -/

/-- Faults used by the statistics witness: no repository operation fails. -/
def faultsNoneW : RepoFaults :=
  { upsertGameFails := fun _ => false
    upsertDefsFails := fun _ => false
    latestReadFails := fun _ => false
    insertSnapshotFails := fun _ => false }

/-- Faults used by the statistics counterexample: the snapshot read inside
unchangedAgainstLatest fails for item 10. -/
def faultsLatestW : RepoFaults :=
  { upsertGameFails := fun _ => false
    upsertDefsFails := fun _ => false
    latestReadFails := fun a => a == 10
    insertSnapshotFails := fun _ => false }

/-- Client whose single owned item has one capability. -/
def clOneDefW : SteamClient :=
  { owned := fun _ => [{ appid := 10, name := "A" }]
    schemas := fun _ => some ([{ apiname := "a1", name := "n", descr := "d" }], "A")
    player := fun _ _ => none }

/-- Client whose single owned item has an empty schema. -/
def clZeroDefsW : SteamClient :=
  { owned := fun _ => [{ appid := 20, name := "B" }]
    schemas := fun _ => some ([], "B")
    player := fun _ _ => none }

/-- Claim C9 counterexample: a concrete uncancelled run that returns a nil
error and still violates Checked = Updated + Skipped.  The snapshot read
for the only queued item fails after the checked counter was incremented,
the worker terminates with the error buffered, and the join select —
facing the closed done channel and the buffered error both ready —
chooses done (pickDone), so the caller sees a nil error while Checked = 1
and Updated + Skipped = 0. -/
theorem refreshStats_invariants_counterexample :
    (RefreshUserConcurrentE faultsLatestW clOneDefW dbEmptyW "u" 1 100 3600 true).2.2 = none ∧
    ¬((RefreshUserConcurrentE faultsLatestW clOneDefW dbEmptyW "u" 1 100 3600 true).1.stats.checked =
      (RefreshUserConcurrentE faultsLatestW clOneDefW dbEmptyW "u" 1 100 3600 true).1.stats.updated +
        (RefreshUserConcurrentE faultsLatestW clOneDefW dbEmptyW "u" 1 100 3600 true).1.stats.skipped) := by
  constructor
  · decide
  · decide

/-- Claim C9 (amended): whenever a refresh run returns with a nil error,
without cancellation, and no repository operation failed during the run,
the returned statistics satisfy Owned = Queued + SkippedCached,
Checked = Updated + Skipped and Snapshots = Updated.  The hypothesis is
the no-repository-failure condition (the embedding never cancels, and a
nil error follows from it for every join choice); it is needed because a
run whose worker aborted can still return a nil error, as the
counterexample shows. -/
theorem refreshStats_identities_no_repo_failure (faults : RepoFaults) (client : SteamClient)
    (db : DB) (steamid : String) (workers now ttl : Int) (pickDone : Bool)
    (h : (RefreshUserConcurrentE faults client db steamid workers now ttl pickDone).2.1 = false) :
    (RefreshUserConcurrentE faults client db steamid workers now ttl pickDone).2.2 = none ∧
    (RefreshUserConcurrentE faults client db steamid workers now ttl pickDone).1.stats.owned =
      (RefreshUserConcurrentE faults client db steamid workers now ttl pickDone).1.stats.queued +
        (RefreshUserConcurrentE faults client db steamid workers now ttl pickDone).1.stats.skippedCached ∧
    (RefreshUserConcurrentE faults client db steamid workers now ttl pickDone).1.stats.checked =
      (RefreshUserConcurrentE faults client db steamid workers now ttl pickDone).1.stats.updated +
        (RefreshUserConcurrentE faults client db steamid workers now ttl pickDone).1.stats.skipped ∧
    (RefreshUserConcurrentE faults client db steamid workers now ttl pickDone).1.stats.snapshots =
      (RefreshUserConcurrentE faults client db steamid workers now ttl pickDone).1.stats.updated := by
  unfold RefreshUserConcurrentE at h ⊢
  dsimp only at h ⊢
  by_cases h0 : (client.owned steamid).length = 0
  · rw [if_pos h0] at h ⊢
    exact ⟨rfl, rfl, rfl, rfl⟩
  · rw [if_neg h0] at h ⊢
    dsimp only at h ⊢
    refine ⟨?_, ?_⟩
    · rw [h]
      rfl
    · refine runE_invariants_aux faults client steamid now _ _ h ?_ ?_ ?_
      · exact (length_filter_split (fun g => gateSkip db now ttl g.appid) (client.owned steamid)).symm
      · rfl
      · rfl

/-- Claim C9 witness: a concrete fault-free run discharging the
no-repository-failure hypothesis. -/
theorem refreshStats_identities_no_repo_failure_witness :
    (RefreshUserConcurrentE faultsNoneW clZeroDefsW dbEmptyW "u" 1 100 3600 false).2.2 = none ∧
    (RefreshUserConcurrentE faultsNoneW clZeroDefsW dbEmptyW "u" 1 100 3600 false).1.stats.owned =
      (RefreshUserConcurrentE faultsNoneW clZeroDefsW dbEmptyW "u" 1 100 3600 false).1.stats.queued +
        (RefreshUserConcurrentE faultsNoneW clZeroDefsW dbEmptyW "u" 1 100 3600 false).1.stats.skippedCached ∧
    (RefreshUserConcurrentE faultsNoneW clZeroDefsW dbEmptyW "u" 1 100 3600 false).1.stats.checked =
      (RefreshUserConcurrentE faultsNoneW clZeroDefsW dbEmptyW "u" 1 100 3600 false).1.stats.updated +
        (RefreshUserConcurrentE faultsNoneW clZeroDefsW dbEmptyW "u" 1 100 3600 false).1.stats.skipped ∧
    (RefreshUserConcurrentE faultsNoneW clZeroDefsW dbEmptyW "u" 1 100 3600 false).1.stats.snapshots =
      (RefreshUserConcurrentE faultsNoneW clZeroDefsW dbEmptyW "u" 1 100 3600 false).1.stats.updated :=
  refreshStats_identities_no_repo_failure faultsNoneW clZeroDefsW dbEmptyW "u" 1 100 3600 false
    (by decide)

/-- Claim C3: the cache gate of a refresh run skips an owned item (incrementing
the skipped-via-cache counter) exactly when its cache entry shows a known
capability count of zero checked within the TTL, enqueues every other
owned item, and every remote call of the run is addressed to a queued
item. -/
theorem cacheGate_skip_iff (client : SteamClient) (db : DB) (steamid : String)
    (workers now ttl : Int) :
    ((RefreshUserConcurrent client db steamid workers now ttl).stats.skippedCached =
      ((client.owned steamid).filter (fun g => gateSkip db now ttl g.appid)).length) ∧
    ((RefreshUserConcurrent client db steamid workers now ttl).stats.queued =
      ((client.owned steamid).filter (fun g => !gateSkip db now ttl g.appid)).length) ∧
    ((RefreshUserConcurrent client db steamid workers now ttl).trace.all (fun c =>
      (((client.owned steamid).filter (fun g => !gateSkip db now ttl g.appid)).map
        (fun g => g.appid)).any (fun a => a == c.appid)) = true) ∧
    (∀ a : Int, gateSkip db now ttl a = true ↔
      ∃ t : Int, GetGameSchemaCache db a = some (some 0, some t) ∧ now - t < ttl) := by
  refine ⟨?_, ?_, ?_, ?_⟩
  · unfold RefreshUserConcurrent
    dsimp only
    by_cases h0 : (client.owned steamid).length = 0
    · rw [if_pos h0]
      rw [List.length_eq_zero.mp h0]
      rfl
    · rw [if_neg h0]
      exact (foldl_stats_preserved client steamid now _ _).2.2.1
  · unfold RefreshUserConcurrent
    dsimp only
    by_cases h0 : (client.owned steamid).length = 0
    · rw [if_pos h0]
      rw [List.length_eq_zero.mp h0]
      rfl
    · rw [if_neg h0]
      exact (foldl_stats_preserved client steamid now _ _).2.1
  · rw [List.all_eq_true]
    intro c hc
    unfold RefreshUserConcurrent at hc
    dsimp only at hc
    by_cases h0 : (client.owned steamid).length = 0
    · rw [if_pos h0] at hc
      cases hc
    · rw [if_neg h0] at hc
      rcases foldl_trace_appids client steamid now _ _ c hc with h | h
      · cases h
      · exact List.any_eq_true.mpr ⟨c.appid, h, by simp⟩
  · intro a
    unfold gateSkip
    rcases hq : GetGameSchemaCache db a with _ | ⟨oc, ot⟩
    · simp
    · rcases oc with _ | cval
      · simp
      · rcases ot with _ | tval
        · simp
        · simp
          constructor
          · rintro ⟨rfl, h⟩
            exact ⟨tval, ⟨rfl, rfl⟩, h⟩
          · rintro ⟨t, ⟨h1, rfl⟩, h2⟩
            exact ⟨h1, h2⟩

end Tracker
